import Mathlib

/-!
Verification development for the `ide-rust` editor extension
(`rust-lang/atom-ide-rust`): a shallow embedding, in Lean 4, of the
toolchain/server lifecycle logic of the package, together with theorems
checking the behavioural properties stated in its specification.

The embedding follows the JavaScript sources:
  * `lib/rust-project.js` / `lib/rls-project.js` — per-project sessions:
    `sendRlsTomlConfig`, the `window/progress` and `$/progress` handlers,
    and the legacy `rustDocument/beginBuild` / `rustDocument/diagnosticsEnd`
    busy counter;
  * `lib/dist-fetch.js` — the remote version oracle: `fetchLatestDist` and
    the dated backward walk `fetchLatestDatedDistWithRls`;
  * `lib/index.js` — `checkRls` single-flight, `installRlsComponents`,
    `shouldIgnoreProjectPath` and the `startServerProcess` ignore gate.
-/

namespace IdeRust

/-! ## JSON-ish values

TOML parse results and configuration payloads are JavaScript values built
from strings, numbers, booleans, arrays and plain objects.  Objects are
association lists of distinct keys in insertion order. -/

inductive JVal where
  | str (s : String)
  | num (n : Int)
  | bool (b : Bool)
  | arr (elems : List JVal)
  | obj (fields : List (String × JVal))

/-- Key lookup in a JavaScript object (first binding wins). -/
def jlookup (k : String) : List (String × JVal) → Option JVal
  | [] => none
  | (k', v) :: rest => if k' = k then some v else jlookup k rest

/-- Every key of the first object occurs in the second. -/
def JVal.keysIncluded (a b : List (String × JVal)) : Bool :=
  a.all fun kv => (jlookup kv.1 b).isSome

mutual

/-- Deep structural equality of JavaScript values in the sense of
underscore's `_.isEqual`: arrays are compared pointwise in order, objects
are compared key-for-key ignoring key order. -/
def JVal.deepEq : JVal → JVal → Bool
  | .str a, .str b => a = b
  | .num a, .num b => a = b
  | .bool a, .bool b => a = b
  | .arr a, .arr b => JVal.deepEqElems a b
  | .obj a, .obj b => JVal.deepEqFields a b && JVal.keysIncluded b a
  | _, _ => false

/-- Pointwise deep equality of array elements. -/
def JVal.deepEqElems : List JVal → List JVal → Bool
  | [], [] => true
  | v :: vs, w :: ws => JVal.deepEq v w && JVal.deepEqElems vs ws
  | _, _ => false

/-- Every field of the first object appears in the second with a deeply
equal value. -/
def JVal.deepEqFields : List (String × JVal) → List (String × JVal) → Bool
  | [], _ => true
  | (k, v) :: rest, b =>
    (match jlookup k b with
     | some w => JVal.deepEq v w
     | none => false) && JVal.deepEqFields rest b

end

/-- `target[k] = v`: overwrite the binding in place if the key exists,
otherwise append it — the single-key step of `Object.assign`. -/
def assignKey (target : List (String × JVal)) (k : String) (v : JVal) :
    List (String × JVal) :=
  if target.any (fun kv => kv.1 = k) then
    target.map fun kv => if kv.1 = k then (kv.1, v) else kv
  else
    target ++ [(k, v)]

/-- `Object.assign(target, source)`: copy the source bindings into the
target in order. -/
def objAssign (target source : List (String × JVal)) : List (String × JVal) :=
  source.foldl (fun acc kv => assignKey acc kv.1 kv.2) target

/-! ## Per-project session configuration (`sendRlsTomlConfig`)

From `lib/rust-project.js` (`RustProject.sendRlsTomlConfig`) and the
structurally identical `lib/rls-project.js` (`RlsProject.sendRlsTomlConfig`):
read `rls.toml`, merge its parsed content over `this.defaultConfig()` with
`Object.assign`, and push a `workspace/didChangeConfiguration` message unless
the merged object `_.isEqual`s the last configuration sent. -/

/-- Outcome of the `fs.readFile` + `toml.parse` step: the read can fail
(`err` set), or succeed and then the parse can throw or return an object. -/
inductive TomlRead where
  | readErr
  | parseErr
  | parsed (config : List (String × JVal))

/-- A JavaScript object configuration. -/
abbrev Config := List (String × JVal)

/-- `_.isEqual(config, lastSent)` where `lastSent` is `null` until the first
successful send (`this._lastSentConfig = null` in the constructor). -/
def isEqualLastSent (config : Config) : Option Config → Bool
  | none => false
  | some last => JVal.deepEq (.obj config) (.obj last)

/-- The merged configuration computed inside the `readFile` callback:
`config = this.defaultConfig()`, then `Object.assign(config, toml.parse(data))`
when the read succeeded and the parse does not throw. -/
def mergedConfig (defaults : Config) : TomlRead → Config
  | .readErr => defaults
  | .parseErr => defaults
  | .parsed c => objAssign defaults c

/-- The `didChangeConfiguration` payload: `{ settings: { rust: config } }`. -/
def configPayload (config : Config) : JVal :=
  .obj [("settings", .obj [("rust", .obj config)])]

/-- Result of one `sendRlsTomlConfig` callback run: the message pushed to the
server (if any) and the new `_lastSentConfig` field. -/
structure SendOutcome where
  sent : Option JVal
  lastSentConfig : Option Config

/-- `RustProject.sendRlsTomlConfig` (`lib/rust-project.js`): merge, compare
with `_.isEqual` against `this._lastSentConfig`, and either return without
sending or push the payload and update `_lastSentConfig`. -/
def sendRlsTomlConfig (defaults : Config) (lastSent : Option Config)
    (read : TomlRead) : SendOutcome :=
  let config := mergedConfig defaults read
  if isEqualLastSent config lastSent then
    { sent := none, lastSentConfig := lastSent }
  else
    { sent := some (configPayload config), lastSentConfig := some config }

/-! ## Legacy build busy counter

From `lib/rls-project.js`, the `rustDocument/beginBuild` and
`rustDocument/diagnosticsEnd` handlers registered in the `RlsProject`
constructor: a single busy indicator (`this._rustDocBusyMessage`) carries a
`count` of outstanding builds; `beginBuild` creates the indicator with count 1
(when the busy-signal service is available) or increments it, and
`diagnosticsEnd` decrements a positive count and disposes the indicator when
the count reaches zero. -/

/-- The two legacy build notifications. -/
inductive BuildEvent where
  | beginBuild
  | diagnosticsEnd
deriving DecidableEq

/-- State of the legacy handler: `nextId` numbers the busy indicators created
by `reportBusy` so far, `busy` holds the live indicator's id and its `count`
field (an `Int`, so that a negative counter would be representable). -/
structure LegacyState where
  nextId : Nat
  busy : Option (Nat × Int)
deriving DecidableEq

/-- Observable UI effects: creating a busy indicator (`reportBusy`) and
disposing one (`dispose`). -/
inductive BusyAct where
  | create (id : Nat)
  | dispose (id : Nat)
deriving DecidableEq

/-- One event step of the legacy handlers (`sig` is whether
`this.getBusySignalService()` returns a service). -/
def legacyStep (sig : Bool) (st : LegacyState) : BuildEvent → LegacyState × List BusyAct
  | .beginBuild =>
    match st.busy with
    | some (i, c) => ({ st with busy := some (i, c + 1) }, [])
    | none =>
      if sig then
        ({ nextId := st.nextId + 1, busy := some (st.nextId, 1) },
         [.create st.nextId])
      else
        (st, [])
  | .diagnosticsEnd =>
    match st.busy with
    | some (i, c) =>
      if 0 < c then
        if c - 1 = 0 then ({ st with busy := none }, [.dispose i])
        else ({ st with busy := some (i, c - 1) }, [])
      else (st, [])
    | none => (st, [])

/-- Initial state: no indicator yet. -/
def legacyInit : LegacyState := { nextId := 0, busy := none }

/-- Process a list of events, accumulating the emitted actions. -/
def legacyRun (sig : Bool) (st : LegacyState) : List BuildEvent → LegacyState × List BusyAct
  | [] => (st, [])
  | e :: es =>
    ((legacyRun sig (legacyStep sig st e).1 es).1,
     (legacyStep sig st e).2 ++ (legacyRun sig (legacyStep sig st e).1 es).2)

/-- The sequence of states entered while processing a list of events (the
initial state included). -/
def legacyStates (sig : Bool) (st : LegacyState) : List BuildEvent → List LegacyState
  | [] => [st]
  | e :: es => st :: legacyStates sig (legacyStep sig st e).1 es

/-- The busy counter value visible in a state (0 when no indicator). -/
def legacyCount (st : LegacyState) : Int :=
  match st.busy with
  | some (_, c) => c
  | none => 0

/-- Ids disposed in a list of actions. -/
def disposedIds : List BusyAct → List Nat
  | [] => []
  | .create _ :: rest => disposedIds rest
  | .dispose i :: rest => i :: disposedIds rest

/-- Invariant tying a legacy-handler state to the actions emitted so far:
a live indicator has a positive count, was created by a past `reportBusy`
(its id is below `nextId`) and has not been disposed; disposed ids come from
past creations and are pairwise distinct (no indicator is disposed twice). -/
structure LegacyInv (st : LegacyState) (acts : List BusyAct) : Prop where
  busyPos : ∀ i c, st.busy = some (i, c) → 1 ≤ c
  busyFresh : ∀ i c, st.busy = some (i, c) → i < st.nextId
  busyUndisposed : ∀ i c, st.busy = some (i, c) → i ∉ disposedIds acts
  disposedLt : ∀ i ∈ disposedIds acts, i < st.nextId
  disposedNodup : (disposedIds acts).Nodup


/-! ## Remote version oracle (`lib/dist-fetch.js`)

Calendar dates are modelled as integers counting days (the source works in
milliseconds but only ever adds or subtracts whole days: `aDayMillis`).
The body of a dated-manifest query (`checkDatedDistHasRls`, an HTTPS fetch)
is abstracted into an oracle giving each date's outcome. -/

/-- JavaScript `haystack.includes(needle)`: contiguous substring test. -/
def jsIncludes (haystack needle : String) : Bool :=
  decide (needle.toList <:+: haystack.toList)

/-- JavaScript `s.trim()`: strip leading and trailing whitespace. -/
def jsTrim (s : String) : String :=
  String.mk
    (((s.toList.dropWhile Char.isWhitespace).reverse.dropWhile
      Char.isWhitespace).reverse)

/-- JavaScript `s.endsWith(t)`. -/
def jsEndsWith (s t : String) : Bool :=
  decide (t.toList <:+ s.toList)

/-- `manifest_includes_rls`: the manifest mentions `rls-preview` and does not
pin it to an empty version. -/
def manifest_includes_rls (manifest : String) : Bool :=
  jsIncludes manifest "rls-preview" &&
    !(jsIncludes manifest ("[pkg.rls-preview]\nversion = \"\"" : String))

/-- Outcome of one dated-manifest query: the promise resolves (a manifest
with the rls component was found) or rejects with an error whose optional
`code` field distinguishes DNS failures. -/
inductive DatedQuery where
  | hasRls
  | fails (code : Option String)
deriving DecidableEq

/-- The `e && e.code === "ENOTFOUND"` test of the walk's catch handler. -/
def isENOTFOUND : Option String → Bool
  | some c => c = "ENOTFOUND"
  | none => false

/-- How the `fetchLatestDatedDistWithRls` promise settles. -/
inductive WalkResult where
  | success (day : Int)
  | errNoNightly
  | errAborted (code : Option String)
deriving DecidableEq

/-- The recursive `check` closure of `fetchLatestDatedDistWithRls`: query a
date; on success resolve with it; rethrow DNS failures; otherwise retry the
previous day while it is within `minDate`, else reject with the
no-nightly-found error.  Also returns the list of dates queried. -/
def walkCheck (oracle : Int → DatedQuery) (minDate : Int) (day : Int) :
    WalkResult × List Int :=
  match oracle day with
  | .hasRls => (.success day, [day])
  | .fails code =>
    if isENOTFOUND code then (.errAborted code, [day])
    else if h : minDate ≤ day - 1 then
      ((walkCheck oracle minDate (day - 1)).1,
       day :: (walkCheck oracle minDate (day - 1)).2)
    else (.errNoNightly, [day])
termination_by (day - minDate).toNat
decreasing_by
  simp_wf
  omega

/-- `fetchLatestDatedDistWithRls`: fix `minDate` thirty days before now and
start the backward walk at today. -/
def fetchLatestDatedDistWithRls (oracle : Int → DatedQuery) (now : Int) :
    WalkResult × List Int :=
  walkCheck oracle (now - 30) now

/-- Network-level outcome of the channel manifest request in
`fetchLatestDist`: either the request's `error` event fires, or a response
arrives with a status code and a body. -/
inductive HttpOutcome where
  | connError (code : Option String)
  | response (status : Nat) (body : String)

/-- How the `fetchLatestDist` promise settles: resolved (`none` standing for
the falsy no-update result) or rejected with an error message. -/
inductive DistOutcome where
  | resolved (update : Option String)
  | rejected (msg : String)
deriving DecidableEq

/-- `fetchLatestDist` from `lib/dist-fetch.js`.  `parseRustcVersion`
abstracts the `[pkg.rustc]` subsection regex match plus `toml.parse`
(returning `none` when the regex finds no subsection).  An `error` event
logs a warning and resolves with no value; a non-200 status rejects; a body
whose rustc subsection cannot be split rejects; otherwise the promise
resolves with the new version string when the trimmed installed version does
not already end with the manifest version and the manifest carries a
non-empty rls component, and with the falsy result otherwise. -/
def fetchLatestDist (parseRustcVersion : String → Option String)
    (currentVersion : String) (res : HttpOutcome) : DistOutcome :=
  match res with
  | .connError _ => .resolved none
  | .response status body =>
    if status ≠ 200 then
      .rejected ("check for toolchain update failed, status: " ++ toString status)
    else
      match parseRustcVersion body with
      | none => .rejected "could not split channel toml output"
      | some v =>
        .resolved
          (if !(jsEndsWith (jsTrim currentVersion) (jsTrim v)) &&
              manifest_includes_rls body
           then some ("rustc " ++ jsTrim v)
           else none)



/-! ## `checkRls` single-flight (`lib/index.js`)

`checkRls` keeps one module-level in-flight promise (`_checkingRls`): a call
finding it set returns it unchanged; a call finding it unset starts the
component-query/install sequence, stores its promise, and clears the handle
when that promise settles (both on fulfilment and on rejection).  Promises
are numbered by creation; the ghost field `live` records the started
sequences not yet settled. -/

/-- Events driving the single-flight handle: a `checkRls` call, or the
settlement (fulfilment or rejection) of the in-flight promise. -/
inductive FlightEvent where
  | call
  | settle (ok : Bool)
deriving DecidableEq

/-- Module state: promise counter, the `_checkingRls` handle, and the ghost
list of component-install sequences started but not yet settled. -/
structure FlightState where
  nextPromise : Nat
  checking : Option Nat
  live : List Nat
deriving DecidableEq

/-- What one `checkRls` call hands its caller: a promise, and whether this
call started a new component-query/install sequence. -/
structure CallResult where
  promise : Nat
  started : Bool
deriving DecidableEq

/-- One `checkRls` call: `if (_checkingRls) return _checkingRls` else start
the sequence and store its promise. -/
def flightCall (st : FlightState) : FlightState × CallResult :=
  match st.checking with
  | some p => (st, { promise := p, started := false })
  | none =>
    ({ nextPromise := st.nextPromise + 1,
       checking := some st.nextPromise,
       live := st.live ++ [st.nextPromise] },
     { promise := st.nextPromise, started := true })

/-- Settlement of the in-flight promise: the `finally` clause sets
`_checkingRls = null` whether it fulfilled or rejected; the settled sequence
leaves the ghost live list. -/
def flightSettle (st : FlightState) : FlightState :=
  match st.checking with
  | some p => { st with checking := none, live := st.live.erase p }
  | none => st

/-- One event step. -/
def flightStep (st : FlightState) : FlightEvent → FlightState × Option CallResult
  | .call => ((flightCall st).1, some (flightCall st).2)
  | .settle _ => (flightSettle st, none)

/-- Initial module state. -/
def flightInit : FlightState :=
  { nextPromise := 0, checking := none, live := [] }

/-- States traversed while processing a list of events. -/
def flightStates (st : FlightState) : List FlightEvent → List FlightState
  | [] => [st]
  | e :: es => st :: flightStates (flightStep st e).1 es

/-- Call results handed out while processing a list of events. -/
def flightResults (st : FlightState) : List FlightEvent → List CallResult
  | [] => []
  | e :: es =>
    match flightStep st e with
    | (st', some r) => r :: flightResults st' es
    | (st', none) => flightResults st' es

/-! ## Installer: `installRlsComponents` (newest revision)

Three sequential `rustup component add` invocations; the first failure shows
an error notification and rethrows, skipping the remaining invocations.  The
`suggestChannelOrDated` lookup only adds a button to the notification and is
not part of the observable trace modelled here; `rustupOverride` stands for
the `rustupOverrides()` entry matching the working directory, consulted in
the catch handler only when the configured toolchain is blank. -/

/-- `toolchain && `--toolchain ${toolchain}` || ''`. -/
def toolchainArg (toolchain : String) : String :=
  if toolchain ≠ "" then "--toolchain " ++ toolchain else ""

/-- The command string `rustup component add ${component} ${toolchainArg}`. -/
def addComponentCmd (component toolchain : String) : String :=
  "rustup component add " ++ component ++ " " ++ toolchainArg toolchain

/-- Success or failure of each of the three component-add invocations. -/
structure InstallEnv where
  addRlsOk : Bool
  addSrcOk : Bool
  addAnalysisOk : Bool
deriving DecidableEq

/-- Observable trace of `installRlsComponents`: commands executed in order,
error notifications shown, and whether the function rethrew. -/
structure InstallTrace where
  cmds : List String
  errorNotes : List String
  threw : Bool
deriving DecidableEq

/-- The error message of the first catch handler:
`` `rls` was not found on ... `` naming the (possibly override) toolchain. -/
def rlsNotFoundMsg (toolchain : String) (rustupOverride : Option String) :
    String :=
  if toolchain = "" then
    match rustupOverride with
    | some ov => "`rls` was not found on rustup override `" ++ ov ++ "`"
    | none => "`rls` was not found on `the default toolchain`"
  else
    "`rls` was not found on `" ++ toolchain ++ "`"

/-- The error message of the second catch handler. -/
def srcNotFoundMsg (toolchain : String) : String :=
  "`rust-src`/`rust-analysis` not found on `" ++
    (if toolchain ≠ "" then toolchain else "the default toolchain") ++ "`"

/-- `installRlsComponents(toolchain, cwd)`: add `rls-preview`, then
`rust-src`, then `rust-analysis`, stopping at and reporting the first
failure. -/
def installRlsComponents (toolchain : String) (rustupOverride : Option String)
    (env : InstallEnv) : InstallTrace :=
  let rlsCmd := addComponentCmd "rls-preview" toolchain
  if !env.addRlsOk then
    { cmds := [rlsCmd],
      errorNotes := [rlsNotFoundMsg toolchain rustupOverride],
      threw := true }
  else
    let srcCmd := addComponentCmd "rust-src" toolchain
    if !env.addSrcOk then
      { cmds := [rlsCmd, srcCmd],
        errorNotes := [srcNotFoundMsg toolchain],
        threw := true }
    else
      let anCmd := addComponentCmd "rust-analysis" toolchain
      if !env.addAnalysisOk then
        { cmds := [rlsCmd, srcCmd, anCmd],
          errorNotes := [srcNotFoundMsg toolchain],
          threw := true }
      else
        { cmds := [rlsCmd, srcCmd, anCmd], errorNotes := [], threw := false }

/-! ## Ignore list: `shouldIgnoreProjectPath` and the spawn gate -/

/-- `p.trim().replace(/[/\\]*$/, '')`: trim, then strip trailing forward
and back slashes. -/
def normalizePath (p : String) : String :=
  String.mk
    (((jsTrim p).toList.reverse.dropWhile fun c => c = '/' || c = '\\').reverse)

/-- JavaScript `s.split(',')`. -/
def splitOnComma (s : String) : List String :=
  (s.toList.splitOn ',').map String.mk

/-- `shouldIgnoreProjectPath`: the config value is falsy (empty), or some
comma-separated entry, normalized, equals the normalized project path. -/
def shouldIgnoreProjectPath (ignoredPaths projectPath : String) : Bool :=
  ignoredPaths ≠ "" &&
    (splitOnComma ignoredPaths).any
      fun p => normalizePath p = normalizePath projectPath

/-- Observable effect of the ignore check at the top of
`startServerProcess`: whether startup proceeds past the check, and the
console warnings and error notifications the check itself emits. -/
structure GateResult where
  proceeds : Bool
  warned : List String
  errorNotes : List String
deriving DecidableEq

/-- The ignore gate of `startServerProcess`: on an ignored path, log a
console warning and return without spawning; otherwise continue startup
unaffected. -/
def startServerGate (ignoredPaths projectPath : String) : GateResult :=
  if shouldIgnoreProjectPath ignoredPaths projectPath then
    { proceeds := false,
      warned := ["ide-rust disabled on " ++ projectPath],
      errorNotes := [] }
  else
    { proceeds := true, warned := [], errorNotes := [] }

/-! ## Token-keyed progress handler (`RustProject.onProgress`) -/

/-- A `$/progress` event value: `kind`, and optional `title`, `message`,
`percentage` fields (absent fields are `undefined`). -/
structure ProgressValue where
  kind : String
  title : Option String
  message : Option String
  percentage : Option Int
deriving DecidableEq

/-- A busy message tracked per token: the text last passed to
`reportBusy`/`setTitle` and the `lastProgress*` fields the handler stores on
it. -/
structure BusyMessage where
  text : String
  lastProgressPercentage : Option Int
  lastProgressMessage : Option String
  lastProgressTitle : Option String
deriving DecidableEq

/-- JavaScript truthiness of an optional number: `undefined` and `0` are
falsy. -/
def truthyNum : Option Int → Bool
  | some n => n ≠ 0
  | none => false

/-- JavaScript truthiness of an optional string: `undefined` and the empty
string are falsy. -/
def truthyStr : Option String → Bool
  | some s => s ≠ ""
  | none => false

/-- JavaScript `a || b` on optional numbers. -/
def jsOrNum (a b : Option Int) : Option Int :=
  if truthyNum a then a else b

/-- JavaScript `a || b` on optional strings. -/
def jsOrStr (a b : Option String) : Option String :=
  if truthyStr a then a else b

/-- Lookup in the `this._progress` map (keyed by token). -/
def plookup (token : Nat) : List (Nat × BusyMessage) → Option BusyMessage
  | [] => none
  | (t, m) :: rest => if t = token then some m else plookup token rest

/-- `this._progress.delete(token)`. -/
def pdelete (token : Nat) : List (Nat × BusyMessage) → List (Nat × BusyMessage)
  | [] => []
  | (t, m) :: rest =>
    if t = token then pdelete token rest else (t, m) :: pdelete token rest

/-- `this._progress.set(token, m)`: overwrite in place or append. -/
def pset (token : Nat) (m : BusyMessage) :
    List (Nat × BusyMessage) → List (Nat × BusyMessage)
  | [] => [(token, m)]
  | (t, m0) :: rest =>
    if t = token then (t, m) :: rest else (t, m0) :: pset token m rest

/-- The busy text `${basename} ${title || "r.a"}` plus the percentage and
message parts, each appended only when truthy. -/
def busyText (projectName : String) (title : Option String)
    (percentage : Option Int) (message : Option String) : String :=
  projectName ++ " " ++ (if truthyStr title then title.getD "" else "r.a") ++
    (if truthyNum percentage
     then " " ++ toString (percentage.getD 0) ++ "%"
     else "") ++
    (if truthyStr message then ": " ++ message.getD "" else "")

/-- `RustProject.onProgress` (`lib/rust-project.js`), for one token-keyed
event, with the busy-signal service available: on `kind == "end"` dispose
and delete the token's entry; otherwise fall back to the entry's previous
percentage/message/title for falsy fields, rebuild the busy text, and
create or retitle the entry, storing the post-fallback fields on it. -/
def onProgress (projectName : String) (progress : List (Nat × BusyMessage))
    (token : Nat) (value : ProgressValue) : List (Nat × BusyMessage) :=
  let done := value.kind = "end"
  match plookup token progress with
  | some m =>
    if done then pdelete token progress
    else
      let percentage := jsOrNum value.percentage m.lastProgressPercentage
      let message := jsOrStr value.message m.lastProgressMessage
      let title := jsOrStr value.title m.lastProgressTitle
      pset token
        { text := busyText projectName title percentage message,
          lastProgressPercentage := percentage,
          lastProgressMessage := message,
          lastProgressTitle := title } progress
  | none =>
    if done then pdelete token progress
    else
      pset token
        { text := busyText projectName value.title value.percentage
            value.message,
          lastProgressPercentage := value.percentage,
          lastProgressMessage := value.message,
          lastProgressTitle := value.title } progress


end IdeRust

namespace IdeRust

/-! ## Theorems for claims C1 and C5 -/

/-- C1: `sendRlsTomlConfig` is an idempotence-gated push: when the merged
configuration (rls.toml values assigned over the package defaults) deep-equals
the last configuration successfully sent, no `didChangeConfiguration` message
is issued and the stored last-sent configuration is unchanged; when they
differ, the payload wrapping the merged configuration is pushed and the stored
last-sent configuration becomes the merged configuration. -/
theorem sendRlsTomlConfig_idempotent_gate
    (defaults : Config) (lastSent : Option Config) (read : TomlRead) :
    let config := mergedConfig defaults read
    let out := sendRlsTomlConfig defaults lastSent read
    (isEqualLastSent config lastSent = true →
      out.sent = none ∧ out.lastSentConfig = lastSent) ∧
    (isEqualLastSent config lastSent = false →
      out.sent = some (configPayload config) ∧
      out.lastSentConfig = some config) := by
  intro config out
  constructor
  · intro h
    simp only [out, sendRlsTomlConfig, config] at *
    rw [h]
    exact ⟨rfl, rfl⟩
  · intro h
    simp only [out, sendRlsTomlConfig, config] at *
    rw [h]
    exact ⟨rfl, rfl⟩

/-- Witness for C1: with defaults `{}` and last-sent `{ features: ["serde"] }`,
re-reading the same file issues no push, while a differing file pushes. -/
theorem sendRlsTomlConfig_idempotent_gate_witness :
    (sendRlsTomlConfig [] (some [("features", .arr [.str "serde"])])
        (.parsed [("features", .arr [.str "serde"])])).sent = none ∧
    (sendRlsTomlConfig [] (some [("features", .arr [.str "serde"])])
        (.parsed [("features", .arr [.str "serde"])])).lastSentConfig =
      some [("features", .arr [.str "serde"])] := by
  have h := sendRlsTomlConfig_idempotent_gate []
    (some [("features", .arr [.str "serde"])])
    (.parsed [("features", .arr [.str "serde"])])
  exact h.1 (by decide)

/-- C5: a per-project `rls.toml` parsing to `{ features: ["serde"] }`, merged
over package defaults that do not define `features` (the default package
configuration yields `{}`), is forwarded to the server as exactly
`{ settings: { rust: { features: ["serde"] } } }`. -/
theorem sendRlsTomlConfig_features_roundtrip :
    (sendRlsTomlConfig [] none (.parsed [("features", .arr [.str "serde"])])).sent =
      some (.obj [("settings", .obj [("rust",
        .obj [("features", .arr [.str "serde"])])])]) := by
  rfl

end IdeRust

namespace IdeRust

/-! ## Theorems for claim C2 (legacy busy counter) -/

/-- `disposedIds` distributes over list append. -/
theorem disposedIds_append (a b : List BusyAct) :
    disposedIds (a ++ b) = disposedIds a ++ disposedIds b := by
  induction a with
  | nil => simp [disposedIds]
  | cons x rest ih => cases x <;> simp [disposedIds, ih]

/-- One legacy event step preserves the handler invariant. -/
theorem legacyStep_inv (sig : Bool) (e : BuildEvent) {st : LegacyState}
    {acts : List BusyAct} (h : LegacyInv st acts) :
    LegacyInv (legacyStep sig st e).1 (acts ++ (legacyStep sig st e).2) := by
  obtain ⟨hpos, hfresh, hundisp, hlt, hnodup⟩ := h
  cases e with
  | beginBuild =>
    rcases hb : st.busy with _ | ⟨i, c⟩
    · simp only [legacyStep, hb]
      split
      · -- busy-signal service available: fresh indicator with count 1
        refine ⟨?_, ?_, ?_, ?_, ?_⟩
        · intro j d hj
          simp only [Option.some.injEq, Prod.mk.injEq] at hj
          omega
        · intro j d hj
          simp only [Option.some.injEq, Prod.mk.injEq] at hj
          dsimp only
          omega
        · intro j d hj
          simp only [Option.some.injEq, Prod.mk.injEq] at hj
          rw [disposedIds_append]
          simp only [disposedIds, List.append_nil]
          intro hmem
          have := hlt j hmem
          omega
        · intro j hj
          rw [disposedIds_append] at hj
          simp only [disposedIds, List.append_nil] at hj
          have := hlt j hj
          dsimp only
          omega
        · rw [disposedIds_append]
          simp only [disposedIds, List.append_nil]
          exact hnodup
      · -- no busy-signal service: nothing happens
        simp only [List.append_nil]
        exact ⟨hpos, hfresh, hundisp, hlt, hnodup⟩
    · -- indicator already live: increment its count
      simp only [legacyStep, hb, List.append_nil]
      refine ⟨?_, ?_, ?_, hlt, hnodup⟩
      · intro j d hj
        simp only [Option.some.injEq, Prod.mk.injEq] at hj
        have := hpos i c hb
        omega
      · intro j d hj
        simp only [Option.some.injEq, Prod.mk.injEq] at hj
        have := hfresh i c hb
        dsimp only
        omega
      · intro j d hj
        simp only [Option.some.injEq, Prod.mk.injEq] at hj
        obtain ⟨rfl, -⟩ := hj
        exact hundisp i c hb
  | diagnosticsEnd =>
    rcases hb : st.busy with _ | ⟨i, c⟩
    · simp only [legacyStep, hb, List.append_nil]
      exact ⟨hpos, hfresh, hundisp, hlt, hnodup⟩
    · simp only [legacyStep, hb]
      split
      next hc =>
        split
        next hc1 =>
          -- count reached zero: dispose the indicator and clear the field
          refine ⟨?_, ?_, ?_, ?_, ?_⟩
          · intro j d hj
            simp at hj
          · intro j d hj
            simp at hj
          · intro j d hj
            simp at hj
          · intro j hj
            rw [disposedIds_append] at hj
            simp only [disposedIds, List.mem_append, List.mem_singleton] at hj
            dsimp only
            rcases hj with hj | hj
            · exact hlt j hj
            · have := hfresh i c hb
              omega
          · rw [disposedIds_append]
            simp only [disposedIds]
            refine List.Nodup.append hnodup (List.nodup_singleton _) ?_
            intro a ha hmem
            rw [List.mem_singleton] at hmem
            subst hmem
            exact hundisp _ c hb ha
        next hc1 =>
          -- count still positive after the decrement
          simp only [List.append_nil]
          refine ⟨?_, ?_, ?_, hlt, hnodup⟩
          · intro j d hj
            simp only [Option.some.injEq, Prod.mk.injEq] at hj
            omega
          · intro j d hj
            simp only [Option.some.injEq, Prod.mk.injEq] at hj
            have := hfresh i c hb
            dsimp only
            omega
          · intro j d hj
            simp only [Option.some.injEq, Prod.mk.injEq] at hj
            obtain ⟨rfl, -⟩ := hj
            exact hundisp i c hb
      next hc =>
        -- guard `count > 0` failed: state unchanged
        simp only [List.append_nil]
        exact ⟨hpos, hfresh, hundisp, hlt, hnodup⟩

/-- The initial state satisfies the invariant with an empty action log. -/
theorem legacyInit_inv : LegacyInv legacyInit [] := by
  refine ⟨?_, ?_, ?_, ?_, ?_⟩ <;> simp [legacyInit, disposedIds]

/-- Running a list of events preserves the handler invariant. -/
theorem legacyRun_inv (sig : Bool) (evts : List BuildEvent)
    {st : LegacyState} {acts : List BusyAct} (h : LegacyInv st acts) :
    LegacyInv (legacyRun sig st evts).1 (acts ++ (legacyRun sig st evts).2) := by
  induction evts generalizing st acts with
  | nil => simpa [legacyRun] using h
  | cons e es ih =>
    have h2 := ih (legacyStep_inv sig e h)
    simpa [legacyRun, List.append_assoc] using h2

/-- In an invariant state the visible busy counter is nonnegative. -/
theorem legacyCount_nonneg {st : LegacyState} {acts : List BusyAct}
    (h : LegacyInv st acts) : 0 ≤ legacyCount st := by
  rcases hb : st.busy with _ | ⟨i, c⟩
  · simp [legacyCount, hb]
  · have := h.busyPos i c hb
    simp only [legacyCount, hb]
    omega

/-- Every state traversed from an invariant state has a nonnegative busy
counter. -/
theorem legacyStates_nonneg (sig : Bool) (evts : List BuildEvent)
    {st : LegacyState} {acts : List BusyAct} (h : LegacyInv st acts) :
    ∀ st' ∈ legacyStates sig st evts, 0 ≤ legacyCount st' := by
  induction evts generalizing st acts with
  | nil =>
    intro st' hmem
    simp only [legacyStates, List.mem_singleton] at hmem
    subst hmem
    exact legacyCount_nonneg h
  | cons e es ih =>
    intro st' hmem
    simp only [legacyStates, List.mem_cons] at hmem
    rcases hmem with rfl | hmem
    · exact legacyCount_nonneg h
    · exact ih (legacyStep_inv sig e h) st' hmem

/-- A dispose action is emitted by a step exactly when the event is
`diagnosticsEnd` and the indicator's count is 1 (about to reach zero). -/
theorem legacyStep_dispose_iff (sig : Bool) (st : LegacyState)
    (e : BuildEvent) (i : Nat) :
    BusyAct.dispose i ∈ (legacyStep sig st e).2 ↔
      e = BuildEvent.diagnosticsEnd ∧ st.busy = some (i, 1) := by
  cases e with
  | beginBuild =>
    rcases hb : st.busy with _ | ⟨j, c⟩
    · cases sig <;> simp [legacyStep, hb]
    · simp [legacyStep, hb]
  | diagnosticsEnd =>
    rcases hb : st.busy with _ | ⟨j, c⟩
    · simp [legacyStep, hb]
    · simp only [legacyStep, hb]
      split
      next hc =>
        split
        next hc1 =>
          simp only [List.mem_singleton, Option.some.injEq, Prod.mk.injEq,
            BusyAct.dispose.injEq, true_iff, true_and]
          constructor
          · intro hij
            subst hij
            exact ⟨rfl, by omega⟩
          · intro hij
            omega
        next hc1 =>
          simp only [List.not_mem_nil, false_iff, not_and, Option.some.injEq,
            Prod.mk.injEq, true_and]
          intro hij
          omega
      next hc =>
        simp only [List.not_mem_nil, false_iff, not_and, Option.some.injEq,
          Prod.mk.injEq, true_and]
        intro hij
        omega

/-- C2: for every sequence of legacy `rustDocument/beginBuild` /
`rustDocument/diagnosticsEnd` events, the busy counter is never negative in
any traversed state; no indicator is ever disposed twice; a dispose is
emitted at a step exactly when a `diagnosticsEnd` takes the count from 1 to
0; and the concrete overlap trace begin, begin, end, end creates one
indicator and disposes it only at the second end event. -/
theorem legacy_busy_lifecycle (sig : Bool) (evts : List BuildEvent) :
    (∀ st ∈ legacyStates sig legacyInit evts, 0 ≤ legacyCount st) ∧
    (disposedIds (legacyRun sig legacyInit evts).2).Nodup ∧
    (∀ st e i, BusyAct.dispose i ∈ (legacyStep sig st e).2 ↔
      e = BuildEvent.diagnosticsEnd ∧ st.busy = some (i, 1)) ∧
    legacyRun true legacyInit
        [.beginBuild, .beginBuild, .diagnosticsEnd, .diagnosticsEnd] =
      ({ nextId := 1, busy := none }, [.create 0, .dispose 0]) ∧
    (legacyRun true legacyInit [.beginBuild, .beginBuild, .diagnosticsEnd]).2 =
      [.create 0] := by
  refine ⟨legacyStates_nonneg sig evts legacyInit_inv, ?_, ?_, ?_, ?_⟩
  · have h := legacyRun_inv sig evts legacyInit_inv
    simpa using h.disposedNodup
  · intro st e i
    exact legacyStep_dispose_iff sig st e i
  · decide
  · decide

/-- Witness for C2: on the overlap trace the intermediate count-2 state is
nonnegative, and the dispose characterization fires on the concrete state
with count 1 receiving `diagnosticsEnd`. -/
theorem legacy_busy_lifecycle_witness :
    (0 ≤ legacyCount { nextId := 1, busy := some (0, 2) }) ∧
    BusyAct.dispose 0 ∈
      (legacyStep true { nextId := 1, busy := some (0, 1) }
        BuildEvent.diagnosticsEnd).2 := by
  have h := legacy_busy_lifecycle true
    [.beginBuild, .beginBuild, .diagnosticsEnd, .diagnosticsEnd]
  refine ⟨h.1 { nextId := 1, busy := some (0, 2) } (by decide), ?_⟩
  exact (h.2.2.1 { nextId := 1, busy := some (0, 1) }
    BuildEvent.diagnosticsEnd 0).mpr ⟨rfl, rfl⟩

end IdeRust

namespace IdeRust

/-! ## Theorems for claims C3, C6 and C9 (remote version oracle) -/

/-- Shape of the backward walk from any start date at or after `minDate`:
the queried dates decrease by exactly one day, at most
`(day - minDate).toNat + 1` dates are queried starting at `day`, and if
every date in the window fails without a DNS error the walk rejects with
the no-nightly-found error. -/
theorem walkCheck_spec (oracle : Int → DatedQuery) (minDate day : Int)
    (h : minDate ≤ day) :
    List.Chain' (fun a b => b = a - 1) (walkCheck oracle minDate day).2 ∧
    (walkCheck oracle minDate day).2.length ≤ (day - minDate).toNat + 1 ∧
    (walkCheck oracle minDate day).2.head? = some day ∧
    ((∀ d, minDate ≤ d → d ≤ day →
        ∃ c, oracle d = .fails c ∧ isENOTFOUND c = false) →
      (walkCheck oracle minDate day).1 = .errNoNightly) := by
  rw [walkCheck]
  cases hq : oracle day with
  | hasRls =>
    dsimp only
    refine ⟨List.chain'_singleton day, by simp, rfl, ?_⟩
    intro hall
    obtain ⟨c, hc, -⟩ := hall day h le_rfl
    rw [hq] at hc
    cases hc
  | fails code =>
    dsimp only
    by_cases hE : isENOTFOUND code = true
    · simp only [hE, if_true]
      refine ⟨List.chain'_singleton day, by simp, rfl, ?_⟩
      intro hall
      obtain ⟨c, hc, hcE⟩ := hall day h le_rfl
      rw [hq] at hc
      cases hc
      rw [hcE] at hE
      cases hE
    · rw [if_neg hE]
      by_cases h1 : minDate ≤ day - 1
      · rw [dif_pos h1]
        have ih := walkCheck_spec oracle minDate (day - 1) h1
        obtain ⟨ihChain, ihLen, ihHead, ihAll⟩ := ih
        refine ⟨?_, ?_, rfl, ?_⟩
        · rw [List.chain'_cons']
          refine ⟨?_, ihChain⟩
          intro y hy
          rw [ihHead] at hy
          rw [Option.mem_some_iff] at hy
          omega
        · simp only [List.length_cons]
          have hlen := ihLen
          omega
        · intro hall
          exact ihAll fun d hd hd2 => hall d hd (by omega)
      · rw [dif_neg h1]
        exact ⟨List.chain'_singleton day, by simp, rfl, fun _ => rfl⟩
termination_by (day - minDate).toNat
decreasing_by
  simp_wf
  omega

/-- C3: the dated backward walk (`fetchLatestDatedDistWithRls`), started
from any date, queries strictly decreasing dates one day apart, queries at
most the 31 dates of the 30-day window, and rejects with the
no-nightly-found error when no manifest in the window has the rls component
(and no DNS failure occurs). -/
theorem fetchLatestDatedDistWithRls_bounded (oracle : Int → DatedQuery)
    (now : Int) :
    List.Chain' (fun a b => b = a - 1)
      (fetchLatestDatedDistWithRls oracle now).2 ∧
    (fetchLatestDatedDistWithRls oracle now).2.length ≤ 31 ∧
    (fetchLatestDatedDistWithRls oracle now).2.head? = some now ∧
    ((∀ d, now - 30 ≤ d → d ≤ now →
        ∃ c, oracle d = .fails c ∧ isENOTFOUND c = false) →
      (fetchLatestDatedDistWithRls oracle now).1 = .errNoNightly) := by
  have h := walkCheck_spec oracle (now - 30) now (by omega)
  obtain ⟨hChain, hLen, hHead, hAll⟩ := h
  refine ⟨hChain, ?_, hHead, hAll⟩
  have : (now - (now - 30)).toNat = 30 := by omega
  rw [this] at hLen
  exact hLen

/-- Witness for C3: an oracle that never finds the component makes the walk
from day 0 reject with the no-nightly-found error. -/
theorem fetchLatestDatedDistWithRls_bounded_witness :
    (fetchLatestDatedDistWithRls (fun _ => .fails none) 0).1 =
      .errNoNightly := by
  exact (fetchLatestDatedDistWithRls_bounded (fun _ => .fails none) 0).2.2.2
    fun d _ _ => ⟨none, rfl, rfl⟩

/-- `fetchLatestDist` on a 200 response whose rustc subsection parses. -/
theorem fetchLatestDist_200 (parse : String → Option String)
    (cur body v : String) (hp : parse body = some v) :
    fetchLatestDist parse cur (.response 200 body) =
      .resolved
        (if !(jsEndsWith (jsTrim cur) (jsTrim v)) && manifest_includes_rls body
         then some ("rustc " ++ jsTrim v)
         else none) := by
  simp [fetchLatestDist, hp]

/-- C6 counterexample: a manifest-parse failure on a successful (200)
channel request makes the `fetchLatestDist` promise reject — the error
propagates to the caller instead of resolving to the falsy no-update
result. -/
theorem fetchLatestDist_parse_failure_rejects :
    fetchLatestDist (fun _ => none) "none" (.response 200 "") =
        .rejected "could not split channel toml output" ∧
    fetchLatestDist (fun _ => none) "none" (.response 200 "") ≠
        .resolved none := by
  refine ⟨rfl, ?_⟩
  intro hcon
  rw [show fetchLatestDist (fun _ => none) "none" (.response 200 "") =
      .rejected "could not split channel toml output" from rfl] at hcon
  cases hcon

/-- C6 (amended): in `fetchLatestDist` only a connection-level failure (the
request's `error` event) resolves to the falsy no-update result, while a
non-200 status or a manifest-parse failure rejects; in the backward walk a
per-date failure that is not ENOTFOUND does not propagate — the walk
continues with the previous date while the window allows — and an ENOTFOUND
failure aborts the walk with that error. -/
theorem distFetch_error_policy (parse : String → Option String)
    (cur : String) :
    (∀ code, fetchLatestDist parse cur (.connError code) = .resolved none) ∧
    (∀ status body, status ≠ 200 →
      fetchLatestDist parse cur (.response status body) =
        .rejected ("check for toolchain update failed, status: " ++
          toString status)) ∧
    (∀ body, parse body = none →
      fetchLatestDist parse cur (.response 200 body) =
        .rejected "could not split channel toml output") ∧
    (∀ oracle minDate day c, oracle day = .fails c → isENOTFOUND c = false →
      minDate ≤ day - 1 →
      (walkCheck oracle minDate day).1 =
        (walkCheck oracle minDate (day - 1)).1) ∧
    (∀ oracle minDate day c, oracle day = .fails c → isENOTFOUND c = true →
      walkCheck oracle minDate day = (.errAborted c, [day])) := by
  refine ⟨fun code => rfl, ?_, ?_, ?_, ?_⟩
  · intro status body hs
    simp [fetchLatestDist, hs]
  · intro body hp
    simp [fetchLatestDist, hp]
  · intro oracle minDate day c hq hE h1
    conv_lhs => rw [walkCheck]
    rw [hq]
    dsimp only
    simp only [hE, Bool.false_eq_true, if_false]
    rw [dif_pos h1]
  · intro oracle minDate day c hq hE
    rw [walkCheck]
    rw [hq]
    dsimp only
    simp only [hE, if_true]

/-- Witness for the amended C6: concrete connection failure, concrete 404,
concrete parse failure, one concrete continued walk step and one concrete
ENOTFOUND abort. -/
theorem distFetch_error_policy_witness :
    fetchLatestDist (fun _ => some "1.0.0") "none"
        (.connError (some "ECONNRESET")) = .resolved none ∧
    fetchLatestDist (fun _ => some "1.0.0") "none" (.response 404 "x") =
        .rejected "check for toolchain update failed, status: 404" ∧
    fetchLatestDist (fun _ => none) "none" (.response 200 "x") =
        .rejected "could not split channel toml output" ∧
    (walkCheck (fun d => if d = 5 then .fails none else .hasRls) 0 5).1 =
        (walkCheck (fun d => if d = 5 then .fails none else .hasRls) 0 4).1 ∧
    walkCheck (fun _ => .fails (some "ENOTFOUND")) 0 5 =
        (.errAborted (some "ENOTFOUND"), [5]) := by
  have h := distFetch_error_policy (fun _ => some "1.0.0") "none"
  have h2 := distFetch_error_policy (fun _ => none) "none"
  exact ⟨h.1 (some "ECONNRESET"),
    h.2.1 404 "x" (by decide),
    h2.2.2.1 "x" rfl,
    h.2.2.2.1 (fun d => if d = 5 then .fails none else .hasRls) 0 5 none
      (by decide) rfl (by decide),
    h.2.2.2.2 (fun _ => .fails (some "ENOTFOUND")) 0 5 (some "ENOTFOUND")
      rfl (by decide)⟩

/-- C9: when the channel manifest's rustc version is one the trimmed
installed version string already ends with, `fetchLatestDist` resolves with
the falsy no-update result even if the manifest has the rls component; and
it resolves with a version string only when the versions differ and the
manifest confirms a present, non-empty rls component, the result being
`rustc ` followed by the trimmed manifest version. -/
theorem fetchLatestDist_same_version_falsy (parse : String → Option String)
    (cur body v : String) (hp : parse body = some v) :
    (jsEndsWith (jsTrim cur) (jsTrim v) = true →
      fetchLatestDist parse cur (.response 200 body) = .resolved none) ∧
    (∀ s, fetchLatestDist parse cur (.response 200 body) =
        .resolved (some s) →
      jsEndsWith (jsTrim cur) (jsTrim v) = false ∧
      manifest_includes_rls body = true ∧
      s = "rustc " ++ jsTrim v) := by
  rw [fetchLatestDist_200 parse cur body v hp]
  constructor
  · intro he
    rw [he]
    simp
  · intro s hs
    by_cases he : jsEndsWith (jsTrim cur) (jsTrim v) = true
    · rw [he] at hs
      simp at hs
    · rw [Bool.not_eq_true] at he
      rw [he] at hs
      by_cases hm : manifest_includes_rls body = true
      · rw [hm] at hs
        simp at hs
        exact ⟨he, hm, hs.symm⟩
      · rw [Bool.not_eq_true] at hm
        rw [hm] at hs
        simp at hs

/-- Witness for C9: same trimmed version resolves falsy even with the rls
component present; differing versions with the component resolve to the new
version string. -/
theorem fetchLatestDist_same_version_falsy_witness :
    fetchLatestDist (fun _ => some "1.30.0") "rustc 1.30.0"
        (.response 200 "rls-preview") = .resolved none ∧
    (jsEndsWith (jsTrim "rustc 1.0.0") (jsTrim "2.0.0") = false ∧
     manifest_includes_rls "rls-preview" = true ∧
     "rustc 2.0.0" = "rustc " ++ jsTrim "2.0.0") := by
  constructor
  · exact (fetchLatestDist_same_version_falsy (fun _ => some "1.30.0")
      "rustc 1.30.0" "rls-preview" "1.30.0" rfl).1 (by decide)
  · exact (fetchLatestDist_same_version_falsy (fun _ => some "2.0.0")
      "rustc 1.0.0" "rls-preview" "2.0.0" rfl).2 "rustc 2.0.0" (by decide)

end IdeRust

namespace IdeRust

/-! ## Theorems for claim C4 (`checkRls` single-flight) -/

/-- The live-sequence list always mirrors the `_checkingRls` handle. -/
theorem flightStep_inv (e : FlightEvent) {st : FlightState}
    (h : st.live = st.checking.toList) :
    (flightStep st e).1.live = (flightStep st e).1.checking.toList := by
  cases e with
  | call =>
    rcases hc : st.checking with _ | p <;>
      simp only [flightStep, flightCall, hc] <;>
      rw [hc] at h <;>
      simp [h]
  | settle ok =>
    rcases hc : st.checking with _ | p <;>
      simp only [flightStep, flightSettle, hc] <;>
      rw [hc] at h <;>
      simp [h]

/-- Every traversed state keeps the live list mirroring the handle. -/
theorem flightStates_inv (evts : List FlightEvent) {st : FlightState}
    (h : st.live = st.checking.toList) :
    ∀ st' ∈ flightStates st evts, st'.live = st'.checking.toList := by
  induction evts generalizing st with
  | nil =>
    intro st' hmem
    simp only [flightStates, List.mem_singleton] at hmem
    subst hmem
    exact h
  | cons e es ih =>
    intro st' hmem
    simp only [flightStates, List.mem_cons] at hmem
    rcases hmem with rfl | hmem
    · exact h
    · exact ih (flightStep_inv e h) st' hmem

/-- C4: `checkRls` is single-flight: a call made while the shared handle
holds an unsettled promise returns that very promise without starting a new
component-query/install sequence and without changing the state; settlement
(success or failure) clears the handle; a call finding the handle clear
starts exactly one fresh sequence and stores its promise; consequently at
most one sequence is in flight in every reachable state, and the trace
call, call, settle, call hands out promise 0 twice (one start) and then a
fresh promise 1. -/
theorem checkRls_single_flight (evts : List FlightEvent) :
    (∀ st ∈ flightStates flightInit evts, st.live.length ≤ 1) ∧
    (∀ st p, st.checking = some p →
      flightCall st = (st, { promise := p, started := false })) ∧
    (∀ st, (flightSettle st).checking = none) ∧
    (∀ st, st.checking = none →
      flightCall st =
        ({ nextPromise := st.nextPromise + 1, checking := some st.nextPromise,
           live := st.live ++ [st.nextPromise] },
         { promise := st.nextPromise, started := true })) ∧
    flightResults flightInit [.call, .call, .settle true, .call] =
      [{ promise := 0, started := true }, { promise := 0, started := false },
       { promise := 1, started := true }] := by
  refine ⟨?_, ?_, ?_, ?_, by decide⟩
  · intro st hmem
    have h := flightStates_inv evts (by rfl) st hmem
    rw [h]
    rcases st.checking with _ | p <;> simp
  · intro st p hc
    simp [flightCall, hc]
  · intro st
    rcases hc : st.checking with _ | p <;> simp [flightSettle, hc]
  · intro st hc
    simp [flightCall, hc]

/-- Witness for C4: in the state after one call, the live count is at most
one, and a second call returns the in-flight promise 0 without starting
anything. -/
theorem checkRls_single_flight_witness :
    ({ nextPromise := 1, checking := some 0, live := [0] } :
        FlightState).live.length ≤ 1 ∧
    flightCall { nextPromise := 1, checking := some 0, live := [0] } =
      ({ nextPromise := 1, checking := some 0, live := [0] },
       { promise := 0, started := false }) := by
  have h := checkRls_single_flight [.call]
  exact ⟨h.1 { nextPromise := 1, checking := some 0, live := [0] } (by decide),
    h.2.1 { nextPromise := 1, checking := some 0, live := [0] } 0 rfl⟩

/-! ## Theorems for claim C7 (installer failure stops the chain) -/

/-- C7: with a nonempty configured toolchain whose rls component add fails,
`installRlsComponents` executes exactly one command — the component add for
precisely that toolchain name — shows exactly one error notification naming
that toolchain, rethrows, and never runs the `rust-src`/`rust-analysis`
steps. -/
theorem installRlsComponents_first_failure (toolchain : String)
    (ov : Option String) (env : InstallEnv) (ht : toolchain ≠ "")
    (hfail : env.addRlsOk = false) :
    installRlsComponents toolchain ov env =
      { cmds := ["rustup component add rls-preview --toolchain " ++ toolchain],
        errorNotes := ["`rls` was not found on `" ++ toolchain ++ "`"],
        threw := true } := by
  simp only [installRlsComponents, hfail, Bool.not_false, if_true,
    addComponentCmd, toolchainArg, rlsNotFoundMsg, ht, if_neg,
    ne_eq, not_false_iff, if_true, if_false]
  rfl

/-- Witness for C7: the concrete scenario with toolchain `stable`. -/
theorem installRlsComponents_first_failure_witness :
    installRlsComponents "stable" none
        { addRlsOk := false, addSrcOk := true, addAnalysisOk := true } =
      { cmds := ["rustup component add rls-preview --toolchain stable"],
        errorNotes := ["`rls` was not found on `stable`"],
        threw := true } := by
  have h := installRlsComponents_first_failure "stable" none
    { addRlsOk := false, addSrcOk := true, addAnalysisOk := true }
    (by decide) rfl
  rw [h]
  rfl

/-! ## Theorems for claim C8 (ignore-list gate) -/

/-- C8: when some entry of the comma-separated ignore list equals the
project path after trimming and trailing-slash removal, the spawn gate stops
startup with only a console warning and no error notification; when no
entry matches, the gate lets startup proceed untouched. -/
theorem startServer_ignore_gate (ignoredPaths projectPath : String)
    (hne : ignoredPaths ≠ "") :
    ((∃ entry ∈ splitOnComma ignoredPaths,
        normalizePath entry = normalizePath projectPath) →
      startServerGate ignoredPaths projectPath =
        { proceeds := false,
          warned := ["ide-rust disabled on " ++ projectPath],
          errorNotes := [] }) ∧
    ((∀ entry ∈ splitOnComma ignoredPaths,
        normalizePath entry ≠ normalizePath projectPath) →
      startServerGate ignoredPaths projectPath =
        { proceeds := true, warned := [], errorNotes := [] }) := by
  constructor
  · intro hex
    obtain ⟨entry, hmem, heq⟩ := hex
    have hig : shouldIgnoreProjectPath ignoredPaths projectPath = true := by
      simp only [shouldIgnoreProjectPath, Bool.and_eq_true, List.any_eq_true,
        decide_eq_true_eq]
      exact ⟨by simpa using hne, entry, hmem, heq⟩
    simp [startServerGate, hig]
  · intro hall
    have hig : shouldIgnoreProjectPath ignoredPaths projectPath = false := by
      simp only [shouldIgnoreProjectPath, Bool.and_eq_false_iff,
        List.any_eq_false, decide_eq_true_eq]
      exact Or.inr fun x hx => hall x hx
    simp [startServerGate, hig]

/-- Witness for C8: the project path ` /c/d ` matches the entry ` /c/d/` of
the list `/a/b, /c/d/` and is gated out; the path `/x` matches nothing and
proceeds. -/
theorem startServer_ignore_gate_witness :
    startServerGate "/a/b, /c/d/" " /c/d " =
      { proceeds := false,
        warned := ["ide-rust disabled on " ++ " /c/d "],
        errorNotes := [] } ∧
    startServerGate "/a/b, /c/d/" "/x" =
      { proceeds := true, warned := [], errorNotes := [] } := by
  constructor
  · exact (startServer_ignore_gate "/a/b, /c/d/" " /c/d " (by decide)).1
      ⟨" /c/d/", by decide, by decide⟩
  · exact (startServer_ignore_gate "/a/b, /c/d/" "/x" (by decide)).2
      (by decide)

/-! ## Theorems for claim C10 (progress truthiness) -/

/-- C10: in the token-keyed progress handler, for a token with an existing
busy entry, an event reporting percentage 0 is handled exactly like one
omitting the percentage, an event with an empty message like one omitting
the message, and an event with an empty title like one omitting the title —
the previous value is carried forward and shown in all three cases, because
the fallbacks and the display guards test JavaScript truthiness; moreover a
falsy percentage is never rendered, so an explicit 0% is never displayed. -/
theorem onProgress_zero_like_omitted (projectName : String)
    (progress : List (Nat × BusyMessage)) (token : Nat)
    (kind : String) (t m : Option String) (p : Option Int)
    (hpresent : (plookup token progress).isSome = true) :
    (onProgress projectName progress token
        { kind := kind, title := t, message := m, percentage := some 0 } =
      onProgress projectName progress token
        { kind := kind, title := t, message := m, percentage := none }) ∧
    (onProgress projectName progress token
        { kind := kind, title := t, message := some "", percentage := p } =
      onProgress projectName progress token
        { kind := kind, title := t, message := none, percentage := p }) ∧
    (onProgress projectName progress token
        { kind := kind, title := some "", message := m, percentage := p } =
      onProgress projectName progress token
        { kind := kind, title := none, message := m, percentage := p }) ∧
    busyText projectName t (some 0) m = busyText projectName t none m := by
  obtain ⟨msg, hmsg⟩ := Option.isSome_iff_exists.mp hpresent
  refine ⟨?_, ?_, ?_, ?_⟩ <;>
    simp [onProgress, hmsg, jsOrNum, jsOrStr, truthyNum, truthyStr, busyText]

/-- Witness for C10: a concrete entry for token 1 with stored values 50 /
`building` / `indexing`, receiving an all-falsy report. -/
theorem onProgress_zero_like_omitted_witness :
    onProgress "proj"
        [(1, { text := "proj indexing 50%: building",
               lastProgressPercentage := some 50,
               lastProgressMessage := some "building",
               lastProgressTitle := some "indexing" })] 1
        { kind := "report", title := some "", message := some "",
          percentage := some 0 } =
      onProgress "proj"
        [(1, { text := "proj indexing 50%: building",
               lastProgressPercentage := some 50,
               lastProgressMessage := some "building",
               lastProgressTitle := some "indexing" })] 1
        { kind := "report", title := some "", message := some "",
          percentage := none } := by
  exact (onProgress_zero_like_omitted "proj"
    [(1, { text := "proj indexing 50%: building",
           lastProgressPercentage := some 50,
           lastProgressMessage := some "building",
           lastProgressTitle := some "indexing" })] 1
    "report" (some "") (some "") (some 0) (by decide)).1

end IdeRust
